import Mathlib

/-!
Shallow embedding of the Imposter game bot (`src/bot.py`): the per-channel
game session state machine — lobby join/leave, game start with imposter
selection, the round loop with clue submission and timeouts, and the final
vote with its tally/tie-break — together with proofs of the specified
properties.

Python dicts are modelled as insertion-ordered association lists
(`List (Nat × α)`); Python sets of ids as `List Nat` with `Nodup`;
`random.choice` / `random.sample` as explicit parameters (a drawn word, a
permutation of the roster whose prefix is the sample); async handlers as
pure `Except`-returning state transformers, where an `error` result means
the handler returned early without mutating the session.
-/

namespace Imposter

/-! ## Configuration constants (src/bot.py CONFIG section) -/

def MIN_PLAYERS : Nat := 3

def MAX_CLUE_LEN : Nat := 80

def ROUNDS_BEFORE_FINAL_VOTE : Nat := 3

def ALLOW_2_IMPOSTERS_AT : Nat := 7

/-! ## Dict model: insertion-ordered association lists -/

def dictContains {α : Type} (d : List (Nat × α)) (k : Nat) : Bool :=
  d.any (fun p => p.1 == k)

def dictLookup {α : Type} : List (Nat × α) → Nat → Option α
  | [], _ => none
  | p :: rest, k => if p.1 == k then some p.2 else dictLookup rest k

/-- Python `d[k] = v` on a dict: overwrite in place if the key exists
(keys are unique, so the first match is the entry), append otherwise. -/
def dictInsert {α : Type} : List (Nat × α) → Nat → α → List (Nat × α)
  | [], k, v => [(k, v)]
  | p :: rest, k, v =>
    if p.1 == k then (k, v) :: rest else p :: dictInsert rest k v

/-- Python `del d[k]` / `d.pop(k, None)`: drop the entry with key `k`. -/
def dictRemove {α : Type} (d : List (Nat × α)) (k : Nat) : List (Nat × α) :=
  d.filter (fun p => p.1 != k)

def dictKeys {α : Type} (d : List (Nat × α)) : List Nat :=
  d.map Prod.fst

/-! ## State (src/bot.py STATE section) -/

structure Player where
  user_id : Nat
  alive : Bool
deriving DecidableEq, Repr

structure GameState where
  host_id : Nat
  started : Bool
  players : List (Nat × Player)
  join_order : List Nat
  secret_word : Option String
  imposters : List Nat
  round_no : Nat
  current_round_clues : List (Nat × String)
  history : List (Nat × List (Nat × String))
  expecting_clue_from : Option Nat
  voting_open : Bool
  votes : List (Nat × Nat)
deriving DecidableEq, Repr

def GameState.is_host (st : GameState) (uid : Nat) : Bool :=
  uid == st.host_id

/-- Source `alive_players`: join_order filtered by membership in `players` and the
alive flag — the fixed turn order. -/
def GameState.alive_players (st : GameState) : List Nat :=
  st.join_order.filter (fun uid =>
    match dictLookup st.players uid with
    | some p => p.alive
    | none => false)

/-- The error taxonomy: every early-return rejection path of a handler. -/
inductive GameError where
  | noActiveSession
  | alreadyStarted
  | alreadyJoined
  | notInLobby
  | notHost
  | notEnoughPlayers
  | notYourTurn
  | alreadySubmitted
  | exactWordClue
  | emptyClue
  | votingClosed
  | notAPlayer
  | selfVote
  | unknownTarget
deriving DecidableEq, Repr

/-! ## Lobby operations (LobbyView.join / LobbyView.leave) -/

/-- Source `LobbyView.join`: reject if started or already in, else append the
player to both the roster dict and the join-order list. -/
def joinLobby (st : GameState) (uid : Nat) : Except GameError GameState :=
  if st.started then .error .alreadyStarted
  else if dictContains st.players uid then .error .alreadyJoined
  else .ok { st with
    players := st.players ++ [(uid, { user_id := uid, alive := true })],
    join_order := st.join_order ++ [uid] }

/-- Source `LobbyView.leave`: reject if started or absent; a host leave tears the
whole session down (result `none`); otherwise the player is deleted from
the roster dict and spliced out of the join-order list. -/
def leaveLobby (st : GameState) (uid : Nat) : Except GameError (Option GameState) :=
  if st.started then .error .notInLobby
  else if ¬ dictContains st.players uid then .error .notInLobby
  else if uid == st.host_id then .ok none
  else .ok (some { st with
    players := dictRemove st.players uid,
    join_order := st.join_order.filter (fun x => x != uid) })

/-- The session created by the first `!startgame`: host alone in the
roster and join order. -/
def initLobby (host : Nat) : GameState :=
  { host_id := host
    started := false
    players := [(host, { user_id := host, alive := true })]
    join_order := [host]
    secret_word := none
    imposters := []
    round_no := 0
    current_round_clues := []
    history := []
    expecting_clue_from := none
    voting_open := false
    votes := [] }

/-! ## Game start (cmd_startgame, second invocation) -/

def imposter_options (n : Nat) : List Nat :=
  if n ≥ ALLOW_2_IMPOSTERS_AT then [1, 2] else [1]

/-- Source `imp_count`: defaults to the first offered option; a digit reply within
the window replaces it only when it is one of the offered options.
`choice = none` models a timeout or no digit reply. -/
def impCount (opts : List Nat) (choice : Option Nat) : Nat :=
  match choice with
  | some c => if c ∈ opts then c else opts.headD 0
  | none => opts.headD 0

/-- Source `cmd_startgame` on an existing lobby: host/started/size checks, then
start the game.  `word` models `random.choice(WORDS)`; `shuffled` models
the randomness of `random.sample(ids, k)` — a permutation of the roster
keys whose length-`k` prefix is the sample. -/
def startGame (st : GameState) (caller : Nat) (choice : Option Nat)
    (word : String) (shuffled : List Nat) : Except GameError GameState :=
  if ¬ st.is_host caller then .error .notHost
  else if st.started then .error .alreadyStarted
  else if st.players.length < MIN_PLAYERS then .error .notEnoughPlayers
  else
    let opts := imposter_options st.players.length
    let k := impCount opts choice
    .ok { st with
      started := true,
      secret_word := some word,
      imposters := shuffled.take k,
      round_no := 0,
      history := [],
      voting_open := false,
      votes := [],
      expecting_clue_from := none }

/-! ## Clue submission (TurnClueView.submit and ClueModal.on_submit) -/

/-- Source `TurnClueView.submit` — the button click that opens the clue modal.
It mutates nothing; it only gates access to the modal. -/
def clueButtonCheck (st : GameState) (uid : Nat) : Except GameError Unit :=
  if ¬ st.started then .error .noActiveSession
  else if st.voting_open then .error .votingClosed
  else if ¬ dictContains st.players uid then .error .notAPlayer
  else if st.expecting_clue_from ≠ some uid then .error .notYourTurn
  else if dictContains st.current_round_clues uid then .error .alreadySubmitted
  else .ok ()

/-- Python `str.strip()`: drop leading and trailing whitespace.
(Executable model; `String.trim` does not reduce in the kernel.) -/
def pyStrip (s : String) : String :=
  ⟨(((s.data.dropWhile Char.isWhitespace).reverse.dropWhile Char.isWhitespace).reverse)⟩

/-- Python `str.upper()` on the alphabet the bot uses (ASCII words). -/
def pyUpper (s : String) : String :=
  ⟨s.data.map Char.toUpper⟩

/-- The `if state.secret_word and clue_text.upper() == state.secret_word.upper()`
guard; `none` and the empty string are falsy in Python. -/
def secretWordBlocked (sw : Option String) (t : String) : Bool :=
  match sw with
  | some w => w ≠ "" && pyUpper t == pyUpper w
  | none => false

/-- Source `ClueModal.on_submit`: strip the text, reject empty text, re-check
voting/turn, block the exact secret word, else record the clue. -/
def clueModalSubmit (st : GameState) (uid : Nat) (text : String) :
    Except GameError GameState :=
  let t := pyStrip text
  if ¬ st.started then .error .noActiveSession
  else if t = "" then .error .emptyClue
  else if st.voting_open then .error .votingClosed
  else if st.expecting_clue_from ≠ some uid then .error .notYourTurn
  else if secretWordBlocked st.secret_word t then .error .exactWordClue
  else .ok { st with current_round_clues := dictInsert st.current_round_clues uid t }

/-- One full submission attempt through the UI: the button click gates the
modal, then the modal submit records the clue. -/
def submitAttempt (st : GameState) (uid : Nat) (text : String) :
    Except GameError GameState :=
  match clueButtonCheck st uid with
  | .error err => .error err
  | .ok _ => clueModalSubmit st uid text

/-! ## Turn timeout (game_loop lines 544-549) -/

def TIMEOUT_PLACEHOLDER : String := "… (timed out)"

/-- The timeout path of the round loop: when the wait window elapsed
without success, write the placeholder — but only if no clue arrived in
the meantime. -/
def recordTimeout (st : GameState) (pid : Nat) : GameState :=
  if dictContains st.current_round_clues pid then st
  else { st with
    current_round_clues := dictInsert st.current_round_clues pid TIMEOUT_PLACEHOLDER }

/-! ## Voting (VoteView / VoteSelect / open_final_voting / finalize_final_voting) -/

/-- Source `VoteView._record` — Skip button (`target = 0`) and the shared
recording path: voting-open, membership, self-vote and unknown-target
checks, then last-vote-wins assignment. -/
def recordVote (st : GameState) (uid : Nat) (target : Nat) :
    Except GameError GameState :=
  if ¬ st.voting_open then .error .votingClosed
  else if ¬ dictContains st.players uid then .error .notAPlayer
  else if target ≠ 0 && target == uid then .error .selfVote
  else if target ≠ 0 && ¬ dictContains st.players target then .error .unknownTarget
  else .ok { st with votes := dictInsert st.votes uid target }

/-- Source `VoteSelect.callback`: the select-menu path.  Its option values are
drawn from `alive_players` at view creation, so `target` ranges over
roster members; the handler itself re-checks voting-open, membership and
self-vote only. -/
def voteSelectCallback (st : GameState) (uid : Nat) (target : Nat) :
    Except GameError GameState :=
  if ¬ st.voting_open then .error .votingClosed
  else if ¬ dictContains st.players uid then .error .notAPlayer
  else if target == uid then .error .selfVote
  else .ok { st with votes := dictInsert st.votes uid target }

/-- The Clear Vote button: `votes.pop(uid, None)`. -/
def clearVote (st : GameState) (uid : Nat) : GameState :=
  { st with votes := dictRemove st.votes uid }

/-- Source `open_final_voting` state mutation: open the window and clear prior
votes. -/
def openFinalVoting (st : GameState) : GameState :=
  { st with voting_open := true, votes := [] }

/-- The vote-counting filter of `finalize_final_voting`: a ballot is
counted when the voter is a roster member and the target is skip (0) or a
roster member. -/
def validVote (players : List (Nat × Player)) (p : Nat × Nat) : Bool :=
  dictContains players p.1 && (p.2 == 0 || dictContains players p.2)

/-- Value `counts[t]` of `finalize_final_voting` (0 when `t` is not a key). -/
def countFor (st : GameState) (t : Nat) : Nat :=
  ((st.votes.filter (validVote st.players)).filter (fun p => p.2 == t)).length

/-- The key set of the `counts` dict, in insertion order. -/
def votedTargets (st : GameState) : List Nat :=
  ((st.votes.filter (validVote st.players)).map Prod.snd).dedup

/-- The bucket pool the top guess is chosen from: the non-skip buckets
when at least one exists, otherwise every bucket including skip. -/
def voteBucketPool (st : GameState) : List Nat :=
  let nonSkip := (votedTargets st).filter (fun t => t ≠ 0)
  if nonSkip = [] then votedTargets st else nonSkip

/-- Value `top_target` of `finalize_final_voting`: over the pool, take the
targets with the maximal count; a unique one is the top guess, otherwise
(tie) there is none. -/
def topGuess (st : GameState) : Option Nat :=
  if votedTargets st = [] then none
  else
    let pool := voteBucketPool st
    let maxVotes := (pool.map (countFor st)).foldr max 0
    let top := pool.filter (fun t => countFor st t == maxVotes)
    if top.length = 1 then top.head? else none

/-! ## The round loop (game_loop) -/

/-- One player's turn inside a round: set the turn cursor, then either an
accepted modal submission lands in the clue map or the window elapses and
the timeout placeholder is recorded, then clear the cursor.  `sub` is the
clue text the player got in during the window (`none`: no attempt or no
accepted one). -/
def runTurn (st : GameState) (pid : Nat) (sub : Option String) : GameState :=
  match sub with
  | some t =>
    match clueModalSubmit { st with expecting_clue_from := some pid } pid t with
    | .ok s => { s with expecting_clue_from := none }
    | .error _ =>
      { recordTimeout { st with expecting_clue_from := some pid } pid with
        expecting_clue_from := none }
  | none =>
    { recordTimeout { st with expecting_clue_from := some pid } pid with
      expecting_clue_from := none }

/-- One iteration of the `while True` loop: bump the round counter, clear
the clue map, run every player of the fixed order in turn, then append the
(round number, clue map) snapshot to the history. -/
def runRound (st : GameState) (subs : Nat → Option String) : GameState :=
  let base := { st with
    round_no := st.round_no + 1,
    current_round_clues := [],
    expecting_clue_from := none }
  let order := base.alive_players
  let played := order.foldl (fun s pid => runTurn s pid (subs pid)) base
  { played with history := played.history ++ [(played.round_no, played.current_round_clues)] }

/-! ## Concrete states used as witnesses, and lobby interaction sequences -/

def lobby2 : GameState :=
  { host_id := 1
    started := false
    players := [(1, { user_id := 1, alive := true }), (2, { user_id := 2, alive := true })]
    join_order := [1, 2]
    secret_word := none
    imposters := []
    round_no := 0
    current_round_clues := []
    history := []
    expecting_clue_from := none
    voting_open := false
    votes := [] }

def lobby3 : GameState :=
  { host_id := 1
    started := false
    players := [(1, { user_id := 1, alive := true }), (2, { user_id := 2, alive := true }),
      (3, { user_id := 3, alive := true })]
    join_order := [1, 2, 3]
    secret_word := none
    imposters := []
    round_no := 0
    current_round_clues := []
    history := []
    expecting_clue_from := none
    voting_open := false
    votes := [] }

/-- A started 3-player game: word PIZZA, imposter 2, player 2 on turn. -/
def game3 : GameState :=
  { lobby3 with
    started := true,
    secret_word := some "PIZZA",
    imposters := [2],
    expecting_clue_from := some 2 }

/-- The final-vote phase of the 3-player game. -/
def voteSt : GameState :=
  { game3 with voting_open := true, expecting_clue_from := none }

/-- An interaction in the lobby phase: a Join or Leave button press. -/
inductive LobbyOp where
  | join (uid : Nat)
  | leave (uid : Nat)

/-- Apply one button press; a rejection leaves the session unchanged, a
host leave removes it (`none`). -/
def applyLobbyOp (st : GameState) (op : LobbyOp) : Option GameState :=
  match op with
  | .join uid =>
    match joinLobby st uid with
    | .ok s => some s
    | .error _ => some st
  | .leave uid =>
    match leaveLobby st uid with
    | .ok r => r
    | .error _ => some st

def applyLobbyOps : GameState → List LobbyOp → Option GameState
  | st, [] => some st
  | st, op :: rest =>
    match applyLobbyOp st op with
    | some s => applyLobbyOps s rest
    | none => none

/-- The lobby-phase data invariant: the roster keys are exactly the
join-order list, which has no duplicates; the session is not started and
the host is unchanged. -/
def lobbyInv (host : Nat) (st : GameState) : Prop :=
  dictKeys st.players = st.join_order ∧ st.join_order.Nodup ∧
  st.started = false ∧ st.host_id = host

/-- The final vote of the spec's test vignette: 1 and 3 vote for 2, 2
skips. -/
def tallySt : GameState :=
  { voteSt with votes := [(1, 2), (3, 2), (2, 0)] }

theorem clueModalSubmit_ok_inv (st : GameState) (uid : Nat) (t : String) (s : GameState)
    (h : clueModalSubmit st uid t = .ok s) :
    s = { st with current_round_clues := dictInsert st.current_round_clues uid (pyStrip t) } := by
  simp only [clueModalSubmit] at h
  split_ifs at h
  all_goals simp_all

theorem recordTimeout_round_no (st : GameState) (pid : Nat) :
    (recordTimeout st pid).round_no = st.round_no := by
  unfold recordTimeout
  split <;> rfl

theorem recordTimeout_history (st : GameState) (pid : Nat) :
    (recordTimeout st pid).history = st.history := by
  unfold recordTimeout
  split <;> rfl

theorem runTurn_round_no (st : GameState) (pid : Nat) (sub : Option String) :
    (runTurn st pid sub).round_no = st.round_no := by
  unfold runTurn
  cases sub with
  | none => simp [recordTimeout_round_no]
  | some t =>
    cases h : clueModalSubmit { st with expecting_clue_from := some pid } pid t with
    | error err => simp [h, recordTimeout_round_no]
    | ok s =>
      simp only [h]
      have hs := clueModalSubmit_ok_inv _ _ _ _ h
      subst hs
      rfl

theorem runTurn_history (st : GameState) (pid : Nat) (sub : Option String) :
    (runTurn st pid sub).history = st.history := by
  unfold runTurn
  cases sub with
  | none => simp [recordTimeout_history]
  | some t =>
    cases h : clueModalSubmit { st with expecting_clue_from := some pid } pid t with
    | error err => simp [h, recordTimeout_history]
    | ok s =>
      simp only [h]
      have hs := clueModalSubmit_ok_inv _ _ _ _ h
      subst hs
      rfl

theorem foldl_runTurn_round_no (l : List Nat) (f : Nat → Option String) (s : GameState) :
    (l.foldl (fun s pid => runTurn s pid (f pid)) s).round_no = s.round_no := by
  induction l generalizing s with
  | nil => rfl
  | cons a l ih => simp only [List.foldl_cons, ih, runTurn_round_no]

theorem foldl_runTurn_history (l : List Nat) (f : Nat → Option String) (s : GameState) :
    (l.foldl (fun s pid => runTurn s pid (f pid)) s).history = s.history := by
  induction l generalizing s with
  | nil => rfl
  | cons a l ih => simp only [List.foldl_cons, ih, runTurn_history]

theorem runRound_round_no (st : GameState) (subs : Nat → Option String) :
    (runRound st subs).round_no = st.round_no + 1 := by
  unfold runRound
  simp only [foldl_runTurn_round_no]

theorem runRound_history_length (st : GameState) (subs : Nat → Option String) :
    (runRound st subs).history.length = st.history.length + 1 := by
  unfold runRound
  simp only [List.length_append, foldl_runTurn_history]
  rfl

/-- The round loop: rounds run one after the other until the counter
reaches `ROUNDS_BEFORE_FINAL_VOTE`, then the final vote opens and the
loop returns.  `subs r pid` is the clue player `pid` got accepted in round
number `r + 1` (if any). -/
def runRounds (st : GameState) (subs : Nat → Nat → Option String) : GameState :=
  if ROUNDS_BEFORE_FINAL_VOTE ≤ (runRound st (subs st.round_no)).round_no then
    openFinalVoting (runRound st (subs st.round_no))
  else runRounds (runRound st (subs st.round_no)) subs
termination_by ROUNDS_BEFORE_FINAL_VOTE - st.round_no
decreasing_by
  have h1 : (runRound st (subs st.round_no)).round_no = st.round_no + 1 :=
    runRound_round_no st (subs st.round_no)
  have h2 : ROUNDS_BEFORE_FINAL_VOTE = 3 := rfl
  omega

/-! ## Helper lemmas about the dict model -/

theorem dictContains_iff_mem_keys {α : Type} (d : List (Nat × α)) (k : Nat) :
    dictContains d k = true ↔ k ∈ dictKeys d := by
  unfold dictContains dictKeys
  rw [List.any_eq_true]
  constructor
  · rintro ⟨p, hp, he⟩
    exact List.mem_map.mpr ⟨p, hp, beq_iff_eq.mp he⟩
  · intro hk
    obtain ⟨p, hp, he⟩ := List.mem_map.mp hk
    exact ⟨p, hp, beq_iff_eq.mpr he⟩

theorem dictLookup_dictInsert_self {α : Type} (d : List (Nat × α)) (k : Nat) (v : α) :
    dictLookup (dictInsert d k v) k = some v := by
  induction d with
  | nil => simp [dictInsert, dictLookup]
  | cons p d ih =>
    by_cases hp : p.1 = k
    · simp [dictInsert, dictLookup, hp]
    · simp [dictInsert, dictLookup, hp, ih]

theorem dictLookup_dictInsert_ne {α : Type} (d : List (Nat × α)) (k k' : Nat) (v : α)
    (h : k' ≠ k) : dictLookup (dictInsert d k v) k' = dictLookup d k' := by
  induction d with
  | nil => simp [dictInsert, dictLookup, Ne.symm h]
  | cons p d ih =>
    by_cases hp : p.1 = k
    · simp [dictInsert, dictLookup, hp, Ne.symm h]
    · by_cases hp' : p.1 = k'
      · simp [dictInsert, dictLookup, hp, hp', h]
      · simp [dictInsert, dictLookup, hp, hp', ih]

theorem dictContains_of_lookup {α : Type} (d : List (Nat × α)) (k : Nat) (v : α)
    (h : dictLookup d k = some v) : dictContains d k = true := by
  induction d with
  | nil => simp [dictLookup] at h
  | cons p d ih =>
    by_cases hp : p.1 = k
    · simp [dictContains, hp]
    · simp only [dictLookup, beq_iff_eq, hp, if_false] at h
      have hc : (d.any fun q => q.1 == k) = true := ih h
      simp [dictContains, List.any_cons, hc]

theorem dictContains_dictInsert_self {α : Type} (d : List (Nat × α)) (k : Nat) (v : α) :
    dictContains (dictInsert d k v) k = true :=
  dictContains_of_lookup _ _ _ (dictLookup_dictInsert_self d k v)

theorem dictKeys_dictRemove {α : Type} (d : List (Nat × α)) (k : Nat) :
    dictKeys (dictRemove d k) = (dictKeys d).filter (fun x => x != k) := by
  unfold dictKeys dictRemove
  induction d with
  | nil => rfl
  | cons p d ih =>
    by_cases hp : p.1 = k
    · have h1 : (p.1 != k) = false := by simp [bne, hp]
      simp [List.filter_cons, h1, ih]
    · have h1 : (p.1 != k) = true := by simp [bne, hp]
      simp [List.filter_cons, h1, ih]

/-! ## Lemmas about game start -/

theorem imposter_options_headD (n : Nat) : (imposter_options n).headD 0 = 1 := by
  unfold imposter_options
  split <;> rfl

theorem impCount_some (opts : List Nat) (c : Nat) :
    impCount opts (some c) = if c ∈ opts then c else opts.headD 0 := rfl

theorem impCount_spec (n : Nat) (choice : Option Nat) :
    impCount (imposter_options n) choice = 1 ∨
    (impCount (imposter_options n) choice = 2 ∧ ALLOW_2_IMPOSTERS_AT ≤ n) := by
  cases choice with
  | none => left; exact imposter_options_headD n
  | some c =>
    rw [impCount_some]
    by_cases hc : c ∈ imposter_options n
    · rw [if_pos hc]
      unfold imposter_options at hc
      by_cases h7 : n ≥ ALLOW_2_IMPOSTERS_AT
      · rw [if_pos h7] at hc
        simp only [List.mem_cons, List.not_mem_nil, or_false] at hc
        rcases hc with h | h
        · left; rw [h]
        · right; exact ⟨by rw [h], h7⟩
      · rw [if_neg h7] at hc
        simp only [List.mem_singleton] at hc
        left; rw [hc]
    · rw [if_neg hc]
      left
      exact imposter_options_headD n

theorem impCount_default (opts : List Nat) (choice : Option Nat)
    (h : choice = none ∨ ∃ c, choice = some c ∧ c ∉ opts) :
    impCount opts choice = opts.headD 0 := by
  rcases h with h | ⟨c, hc, hmem⟩
  · rw [h]; rfl
  · rw [hc, impCount_some, if_neg hmem]

/-- Inversion of a successful `startGame`: the exact state it produces. -/
theorem startGame_ok (st : GameState) (caller : Nat) (choice : Option Nat)
    (word : String) (shuffled : List Nat)
    (hhost : st.is_host caller = true) (hstarted : st.started = false)
    (hlen : MIN_PLAYERS ≤ st.players.length) :
    startGame st caller choice word shuffled = .ok { st with
      started := true,
      secret_word := some word,
      imposters := shuffled.take (impCount (imposter_options st.players.length) choice),
      round_no := 0,
      history := [],
      voting_open := false,
      votes := [],
      expecting_clue_from := none } := by
  unfold startGame
  simp [hhost, hstarted, Nat.not_lt.mpr hlen]

/-- C6: starting with fewer than `MIN_PLAYERS` always fails with
NotEnoughPlayers; the error return means no session field is mutated. -/
theorem startGame_minPlayers (st : GameState) (caller : Nat) (choice : Option Nat)
    (word : String) (shuffled : List Nat)
    (hhost : st.is_host caller = true) (hstarted : st.started = false)
    (hlen : st.players.length < MIN_PLAYERS) :
    startGame st caller choice word shuffled = .error .notEnoughPlayers := by
  unfold startGame
  simp [hhost, hstarted, hlen]

/-- Witness for C6 at a concrete two-player lobby. -/
theorem startGame_minPlayers_witness :
    lobby2.is_host 1 = true ∧ lobby2.started = false ∧ lobby2.players.length < MIN_PLAYERS ∧
    startGame lobby2 1 none "PIZZA" [2, 1] = .error .notEnoughPlayers :=
  ⟨by decide, by decide, by decide,
    startGame_minPlayers lobby2 1 none "PIZZA" [2, 1] (by decide) (by decide) (by decide)⟩

/-- C5: a successful start draws 1 or 2 distinct imposters from the
roster, and 2 only when the roster has at least `ALLOW_2_IMPOSTERS_AT`
players. -/
theorem startGame_imposters_invariant (st : GameState) (caller : Nat) (choice : Option Nat)
    (word : String) (shuffled : List Nat)
    (hhost : st.is_host caller = true) (hstarted : st.started = false)
    (hlen : MIN_PLAYERS ≤ st.players.length)
    (hperm : shuffled.Perm (dictKeys st.players))
    (hnodup : (dictKeys st.players).Nodup) :
    ∃ st', startGame st caller choice word shuffled = .ok st' ∧
      (st'.imposters.length = 1 ∨ st'.imposters.length = 2) ∧
      st'.imposters.Nodup ∧
      (∀ i ∈ st'.imposters, dictContains st'.players i = true) ∧
      (st'.imposters.length = 2 → ALLOW_2_IMPOSTERS_AT ≤ st.players.length) := by
  have hlenshuf : shuffled.length = st.players.length := by
    rw [hperm.length_eq]
    unfold dictKeys
    exact List.length_map _ _
  have hm : MIN_PLAYERS = 3 := rfl
  refine ⟨_, startGame_ok st caller choice word shuffled hhost hstarted hlen, ?_, ?_, ?_, ?_⟩
  · -- length is 1 or 2
    have hk := impCount_spec st.players.length choice
    rcases hk with hk | ⟨hk, _⟩ <;> rw [hk] <;> rw [List.length_take] <;> omega
  · -- nodup
    have hshuf : shuffled.Nodup := (hperm.nodup_iff).mpr hnodup
    exact (List.take_sublist _ _).nodup hshuf
  · -- subset of roster
    intro i hi
    have h1 : i ∈ shuffled := List.mem_of_mem_take hi
    have h2 : i ∈ dictKeys st.players := (hperm.mem_iff).mp h1
    exact (dictContains_iff_mem_keys _ _).mpr h2
  · -- two imposters only with a big enough roster
    intro h2
    have hk := impCount_spec st.players.length choice
    rcases hk with hk | ⟨hk, h7⟩
    · rw [hk] at h2
      rw [List.length_take] at h2
      omega
    · exact h7

/-- Witness for C5: three-player lobby, host 1 starts, sample prefix [3, 1, 2]. -/
theorem startGame_imposters_invariant_witness :
    ∃ st', startGame lobby3 1 (some 1) "PIZZA" [3, 1, 2] = .ok st' ∧
      (st'.imposters.length = 1 ∨ st'.imposters.length = 2) ∧
      st'.imposters.Nodup ∧
      (∀ i ∈ st'.imposters, dictContains st'.players i = true) ∧
      (st'.imposters.length = 2 → ALLOW_2_IMPOSTERS_AT ≤ lobby3.players.length) :=
  startGame_imposters_invariant lobby3 1 (some 1) "PIZZA" [3, 1, 2]
    (by decide) (by decide) (by decide) (by decide) (by decide)

/-- C10: on a lobby of at least `MIN_PLAYERS`, when the host's
imposter-count prompt times out (`choice = none`) or the reply is outside
the offered options, the game still starts with exactly one imposter —
the first offered option. -/
theorem startGame_default_count (st : GameState) (caller : Nat) (choice : Option Nat)
    (word : String) (shuffled : List Nat)
    (hhost : st.is_host caller = true) (hstarted : st.started = false)
    (hlen : MIN_PLAYERS ≤ st.players.length)
    (hperm : shuffled.Perm (dictKeys st.players))
    (hchoice : choice = none ∨ ∃ c, choice = some c ∧ c ∉ imposter_options st.players.length) :
    ∃ st', startGame st caller choice word shuffled = .ok st' ∧
      st'.started = true ∧
      st'.imposters.length = 1 ∧
      impCount (imposter_options st.players.length) choice
        = (imposter_options st.players.length).headD 0 ∧
      (imposter_options st.players.length).headD 0 = 1 := by
  refine ⟨_, startGame_ok st caller choice word shuffled hhost hstarted hlen, rfl, ?_,
    impCount_default _ _ hchoice, imposter_options_headD _⟩
  rw [impCount_default _ _ hchoice, imposter_options_headD]
  have hlenshuf : shuffled.length = st.players.length := by
    rw [hperm.length_eq]
    unfold dictKeys
    exact List.length_map _ _
  have hm : MIN_PLAYERS = 3 := rfl
  rw [List.length_take]
  omega

/-- Witness for C10: host replies 2 in a 3-player lobby where only 1 is
offered; the game starts with one imposter. -/
theorem startGame_default_count_witness :
    ∃ st', startGame lobby3 1 (some 2) "PIZZA" [2, 3, 1] = .ok st' ∧
      st'.started = true ∧
      st'.imposters.length = 1 ∧
      impCount (imposter_options lobby3.players.length) (some 2)
        = (imposter_options lobby3.players.length).headD 0 ∧
      (imposter_options lobby3.players.length).headD 0 = 1 :=
  startGame_default_count lobby3 1 (some 2) "PIZZA" [2, 3, 1]
    (by decide) (by decide) (by decide) (by decide)
    (Or.inr ⟨2, rfl, by decide⟩)

/-! ## Claims about clue recording -/

/-- C9: when the turn window elapses, the timeout placeholder is written
for the player only if no accepted clue is present, never overwriting one,
and writing it twice changes nothing further. -/
theorem recordTimeout_spec (st : GameState) (pid : Nat) :
    (dictContains st.current_round_clues pid = false →
      dictLookup (recordTimeout st pid).current_round_clues pid = some TIMEOUT_PLACEHOLDER) ∧
    (dictContains st.current_round_clues pid = true → recordTimeout st pid = st) ∧
    recordTimeout (recordTimeout st pid) pid = recordTimeout st pid := by
  refine ⟨?_, ?_, ?_⟩
  · intro h
    unfold recordTimeout
    rw [if_neg (by simp [h])]
    exact dictLookup_dictInsert_self _ _ _
  · intro h
    unfold recordTimeout
    rw [if_pos h]
  · by_cases h : dictContains st.current_round_clues pid = true
    · have e1 : recordTimeout st pid = st := by
        unfold recordTimeout
        rw [if_pos h]
      rw [e1, e1]
    · have e1 : recordTimeout st pid = { st with
        current_round_clues := dictInsert st.current_round_clues pid TIMEOUT_PLACEHOLDER } := by
        unfold recordTimeout
        rw [if_neg h]
      rw [e1]
      unfold recordTimeout
      simp [dictContains_dictInsert_self]

/-- Witness for C9: player 2 with no clue this round gets the placeholder. -/
theorem recordTimeout_spec_witness :
    dictLookup (recordTimeout game3 2).current_round_clues 2 = some TIMEOUT_PLACEHOLDER :=
  (recordTimeout_spec game3 2).1 (by decide)

/-- C7: a clue equal to the secret word up to case is never accepted: the
modal handler rejects it, so the clue map and the turn cursor are
untouched. -/
theorem exactWord_never_accepted (st : GameState) (uid : Nat) (text w : String)
    (hw : st.secret_word = some w) (hne : w ≠ "")
    (hmatch : pyUpper (pyStrip text) = pyUpper w) :
    ∀ s, clueModalSubmit st uid text ≠ .ok s := by
  intro s hok
  simp only [clueModalSubmit] at hok
  split_ifs at hok
  all_goals cases hok
  next h1 h2 h3 h4 h5 =>
    refine h5 ?_
    rw [hw]
    unfold secretWordBlocked
    simp [hne, hmatch]

/-- Witness for C7: typing the secret word itself is rejected. -/
theorem exactWord_never_accepted_witness :
    clueModalSubmit game3 2 "pizza" ≠ .ok game3 :=
  exactWord_never_accepted game3 2 "pizza" "PIZZA" rfl (by decide) (by decide) game3

theorem clueButtonCheck_ok_inv (st : GameState) (uid : Nat)
    (h : clueButtonCheck st uid = .ok ()) :
    st.started = true ∧ st.voting_open = false ∧ dictContains st.players uid = true ∧
    st.expecting_clue_from = some uid ∧ dictContains st.current_round_clues uid = false := by
  unfold clueButtonCheck at h
  split_ifs at h with h1 h2 h3 h4 h5
  all_goals simp_all

/-- C2: once a submission attempt by a player succeeded this round, a
second attempt by the same player is rejected with AlreadySubmitted and
the recorded first clue stays in place. -/
theorem second_submission_rejected (st st1 : GameState) (uid : Nat) (t1 t2 : String)
    (h1 : submitAttempt st uid t1 = .ok st1) :
    dictLookup st1.current_round_clues uid = some (pyStrip t1) ∧
    submitAttempt st1 uid t2 = .error .alreadySubmitted := by
  unfold submitAttempt at h1
  cases hb : clueButtonCheck st uid with
  | error e => rw [hb] at h1; exact Except.noConfusion h1
  | ok u =>
    rw [hb] at h1
    have hinv := clueModalSubmit_ok_inv _ _ _ _ h1
    obtain ⟨hst, hvo, hpl, hexp, _⟩ := clueButtonCheck_ok_inv st uid (by cases u; exact hb)
    subst hinv
    constructor
    · exact dictLookup_dictInsert_self _ _ _
    · unfold submitAttempt
      have hbc : clueButtonCheck { st with
          current_round_clues := dictInsert st.current_round_clues uid (pyStrip t1) } uid
          = .error .alreadySubmitted := by
        unfold clueButtonCheck
        simp [hst, hvo, hpl, hexp, dictContains_dictInsert_self]
      rw [hbc]

/-- Witness for C2: player 2 submits "hot", then "warm" is rejected. -/
theorem second_submission_rejected_witness :
    dictLookup ({ game3 with
        current_round_clues := dictInsert game3.current_round_clues 2 (pyStrip "hot") } :
      GameState).current_round_clues 2 = some (pyStrip "hot") ∧
    submitAttempt { game3 with
        current_round_clues := dictInsert game3.current_round_clues 2 (pyStrip "hot") } 2 "warm"
      = .error .alreadySubmitted :=
  second_submission_rejected game3 _ 2 "hot" "warm" (by rfl)

/-! ## Claim about vote casting -/

/-- C3: `vote(voter, target)` fails with VotingClosed / NotAPlayer /
SelfVote / UnknownTarget exactly as specified (player ids are nonzero —
0 is the skip sentinel), and an accepted vote overwrites any prior vote
by the same voter, with re-voting always possible. -/
theorem recordVote_spec (st : GameState) (uid target : Nat) :
    (st.voting_open = false → recordVote st uid target = .error .votingClosed) ∧
    (st.voting_open = true → dictContains st.players uid = false →
      recordVote st uid target = .error .notAPlayer) ∧
    (st.voting_open = true → dictContains st.players uid = true → target = uid → uid ≠ 0 →
      recordVote st uid target = .error .selfVote) ∧
    (st.voting_open = true → dictContains st.players uid = true → target ≠ 0 → target ≠ uid →
      dictContains st.players target = false →
      recordVote st uid target = .error .unknownTarget) ∧
    (st.voting_open = true → dictContains st.players uid = true →
      (target = 0 ∨ (target ≠ uid ∧ dictContains st.players target = true)) →
      recordVote st uid target = .ok { st with votes := dictInsert st.votes uid target } ∧
      dictLookup (dictInsert st.votes uid target) uid = some target) := by
  refine ⟨?_, ?_, ?_, ?_, ?_⟩
  · intro hvo
    simp [recordVote, hvo]
  · intro hvo hpl
    simp [recordVote, hvo, hpl]
  · intro hvo hpl htu hu0
    subst htu
    simp [recordVote, hvo, hpl, hu0]
  · intro hvo hpl ht0 htu hpt
    simp [recordVote, hvo, hpl, ht0, htu, hpt]
  · intro hvo hpl hok
    rcases hok with h0 | ⟨htu, hpt⟩
    · subst h0
      exact ⟨by simp [recordVote, hvo, hpl], dictLookup_dictInsert_self _ _ _⟩
    · exact ⟨by simp [recordVote, hvo, hpl, htu, hpt], dictLookup_dictInsert_self _ _ _⟩

/-- Witness for C3: player 1 votes for 2 during the open window. -/
theorem recordVote_spec_witness :
    recordVote voteSt 1 2 = .ok { voteSt with votes := dictInsert voteSt.votes 1 2 } ∧
    dictLookup (dictInsert voteSt.votes 1 2) 1 = some 2 :=
  (recordVote_spec voteSt 1 2).2.2.2.2 (by decide) (by decide)
    (Or.inr ⟨by decide, by decide⟩)

/-! ## Claim about the round/vote transition -/

theorem clueModalSubmit_ok_voting (st : GameState) (uid : Nat) (text : String)
    (s : GameState) (h : clueModalSubmit st uid text = .ok s) :
    st.voting_open = false := by
  simp only [clueModalSubmit] at h
  split_ifs at h
  all_goals cases h
  next h1 h2 h3 h4 h5 =>
    cases hvo : st.voting_open
    · rfl
    · exact absurd hvo h3

theorem runRounds_reaches_vote : ∀ n (st : GameState) (subs : Nat → Nat → Option String),
    st.round_no < ROUNDS_BEFORE_FINAL_VOTE →
    ROUNDS_BEFORE_FINAL_VOTE - st.round_no ≤ n →
    (runRounds st subs).round_no = ROUNDS_BEFORE_FINAL_VOTE ∧
    (runRounds st subs).voting_open = true ∧
    (runRounds st subs).history.length
      = st.history.length + (ROUNDS_BEFORE_FINAL_VOTE - st.round_no) := by
  intro n
  induction n with
  | zero =>
    intro st subs h hle
    have h3 : ROUNDS_BEFORE_FINAL_VOTE = 3 := rfl
    omega
  | succ n ih =>
    intro st subs h hle
    have hrn : (runRound st (subs st.round_no)).round_no = st.round_no + 1 :=
      runRound_round_no st (subs st.round_no)
    have hrh : (runRound st (subs st.round_no)).history.length = st.history.length + 1 :=
      runRound_history_length st (subs st.round_no)
    have h3 : ROUNDS_BEFORE_FINAL_VOTE = 3 := rfl
    unfold runRounds
    by_cases hc : ROUNDS_BEFORE_FINAL_VOTE ≤ (runRound st (subs st.round_no)).round_no
    · rw [if_pos hc]
      refine ⟨?_, rfl, ?_⟩
      · simp only [openFinalVoting]
        omega
      · simp only [openFinalVoting]
        omega
    · rw [if_neg hc]
      obtain ⟨ih1, ih2, ih3⟩ := ih (runRound st (subs st.round_no)) subs (by omega) (by omega)
      refine ⟨ih1, ih2, ?_⟩
      rw [ih3, hrh, hrn]
      omega

/-- C8: starting the loop at round counter 0, exactly
`ROUNDS_BEFORE_FINAL_VOTE` rounds run (each appending one history entry),
then voting opens; and no clue submission can succeed while voting is
open. -/
theorem three_rounds_then_vote (st : GameState) (subs : Nat → Nat → Option String)
    (h0 : st.round_no = 0) :
    (runRounds st subs).round_no = ROUNDS_BEFORE_FINAL_VOTE ∧
    (runRounds st subs).voting_open = true ∧
    (runRounds st subs).history.length = st.history.length + ROUNDS_BEFORE_FINAL_VOTE ∧
    (∀ st' : GameState, ∀ uid : Nat, ∀ text : String, st'.voting_open = true →
      ∀ s, clueModalSubmit st' uid text ≠ .ok s) ∧
    (∀ st' : GameState, ∀ uid : Nat, st'.voting_open = true → st'.started = true →
      clueButtonCheck st' uid = .error .votingClosed) := by
  obtain ⟨ih1, ih2, ih3⟩ := runRounds_reaches_vote ROUNDS_BEFORE_FINAL_VOTE st subs
    (by rw [h0]; decide) (by rw [h0, Nat.sub_zero])
  refine ⟨ih1, ih2, by rw [ih3, h0, Nat.sub_zero], ?_, ?_⟩
  · intro st' uid text hvo s hok
    have hv := clueModalSubmit_ok_voting st' uid text s hok
    simp [hvo] at hv
  · intro st' uid hvo hst
    unfold clueButtonCheck
    simp [hvo, hst]

/-- Witness for C8: the 3-player game where every turn times out. -/
theorem three_rounds_then_vote_witness :
    (runRounds game3 (fun _ _ => none)).round_no = ROUNDS_BEFORE_FINAL_VOTE ∧
    (runRounds game3 (fun _ _ => none)).voting_open = true ∧
    (runRounds game3 (fun _ _ => none)).history.length
      = game3.history.length + ROUNDS_BEFORE_FINAL_VOTE ∧
    (∀ st' : GameState, ∀ uid : Nat, ∀ text : String, st'.voting_open = true →
      ∀ s, clueModalSubmit st' uid text ≠ .ok s) ∧
    (∀ st' : GameState, ∀ uid : Nat, st'.voting_open = true → st'.started = true →
      clueButtonCheck st' uid = .error .votingClosed) :=
  three_rounds_then_vote game3 (fun _ _ => none) rfl

/-! ## Claim about the lobby invariant -/

theorem applyLobbyOp_inv (host : Nat) (st : GameState) (op : LobbyOp) (st' : GameState)
    (hinv : lobbyInv host st) (h : applyLobbyOp st op = some st') : lobbyInv host st' := by
  obtain ⟨hkeys, hnd, hns, hh⟩ := hinv
  cases op with
  | join uid =>
    simp only [applyLobbyOp] at h
    cases hj : joinLobby st uid with
    | error e =>
      rw [hj] at h
      cases h
      exact ⟨hkeys, hnd, hns, hh⟩
    | ok s =>
      rw [hj] at h
      cases h
      simp only [joinLobby] at hj
      split_ifs at hj with h1 h2
      cases hj
      have huid : uid ∉ st.join_order := by
        rw [← hkeys]
        intro hm
        exact h2 ((dictContains_iff_mem_keys _ _).mpr hm)
      refine ⟨?_, ?_, hns, hh⟩
      · simp only [dictKeys, List.map_append, List.map_cons, List.map_nil]
        rw [← dictKeys, hkeys]
      · show (st.join_order ++ [uid]).Nodup
        rw [← List.concat_eq_append]
        exact hnd.concat huid
  | leave uid =>
    simp only [applyLobbyOp] at h
    cases hl : leaveLobby st uid with
    | error e =>
      rw [hl] at h
      cases h
      exact ⟨hkeys, hnd, hns, hh⟩
    | ok r =>
      rw [hl] at h
      simp only [leaveLobby] at hl
      split_ifs at hl with h1 h2 h3
      · cases hl
        cases h
      · cases hl
        cases h
        refine ⟨?_, hnd.filter _, hns, hh⟩
        rw [dictKeys_dictRemove, hkeys]

theorem applyLobbyOps_inv (host : Nat) (ops : List LobbyOp) :
    ∀ st st', lobbyInv host st → applyLobbyOps st ops = some st' → lobbyInv host st' := by
  induction ops with
  | nil =>
    intro st st' hinv h
    cases h
    exact hinv
  | cons op rest ih =>
    intro st st' hinv h
    simp only [applyLobbyOps] at h
    cases ha : applyLobbyOp st op with
    | none => rw [ha] at h; cases h
    | some s =>
      rw [ha] at h
      exact ih s st' (applyLobbyOp_inv host st op s hinv ha) h

theorem initLobby_inv (host : Nat) : lobbyInv host (initLobby host) :=
  ⟨rfl, List.nodup_singleton host, rfl, rfl⟩

/-- C4: after any sequence of lobby join/leave presses, roster membership
and join-order membership coincide (with no duplicate ids), and a
non-host leave removes exactly that id, keeping the others in order. -/
theorem lobby_roster_join_order (host : Nat) (ops : List LobbyOp) (st : GameState)
    (h : applyLobbyOps (initLobby host) ops = some st) :
    (∀ uid, dictContains st.players uid = true ↔ uid ∈ st.join_order) ∧
    st.join_order.Nodup ∧
    (∀ uid, uid ≠ host → dictContains st.players uid = true →
      ∃ st', leaveLobby st uid = .ok (some st') ∧
        st'.join_order = st.join_order.filter (fun x => x != uid) ∧
        st'.join_order.Sublist st.join_order ∧
        uid ∉ st'.join_order ∧
        (∀ v, v ≠ uid → (v ∈ st'.join_order ↔ v ∈ st.join_order)) ∧
        (∀ v, dictContains st'.players v = true ↔ v ∈ st'.join_order)) := by
  obtain ⟨hkeys, hnd, hns, hh⟩ := applyLobbyOps_inv host ops (initLobby host) st
    (initLobby_inv host) h
  refine ⟨?_, hnd, ?_⟩
  · intro uid
    rw [dictContains_iff_mem_keys, hkeys]
  · intro uid hne hmem
    have hstep : leaveLobby st uid = .ok (some { st with
        players := dictRemove st.players uid,
        join_order := st.join_order.filter (fun x => x != uid) }) := by
      unfold leaveLobby
      rw [if_neg (by simp [hns]), if_neg (by simp [hmem]), if_neg (by simp [hh, hne])]
    refine ⟨_, hstep, rfl, ?_, ?_, ?_, ?_⟩
    · exact List.filter_sublist _
    · simp
    · intro v hv
      simp [List.mem_filter, bne, hv]
    · intro v
      rw [dictContains_iff_mem_keys]
      show v ∈ dictKeys (dictRemove st.players uid) ↔ _
      rw [dictKeys_dictRemove, hkeys]

/-- Witness for C4: players 2 and 3 join host 1's lobby. -/
theorem lobby_roster_join_order_witness :
    (∀ uid, dictContains lobby3.players uid = true ↔ uid ∈ lobby3.join_order) ∧
    lobby3.join_order.Nodup ∧
    (∀ uid, uid ≠ 1 → dictContains lobby3.players uid = true →
      ∃ st', leaveLobby lobby3 uid = .ok (some st') ∧
        st'.join_order = lobby3.join_order.filter (fun x => x != uid) ∧
        st'.join_order.Sublist lobby3.join_order ∧
        uid ∉ st'.join_order ∧
        (∀ v, v ≠ uid → (v ∈ st'.join_order ↔ v ∈ lobby3.join_order)) ∧
        (∀ v, dictContains st'.players v = true ↔ v ∈ st'.join_order)) :=
  lobby_roster_join_order 1 [.join 2, .join 3] lobby3 rfl

/-! ## Claim about the final tally -/

theorem le_foldr_max (l : List Nat) (x : Nat) (hx : x ∈ l) : x ≤ l.foldr max 0 := by
  induction l with
  | nil => cases hx
  | cons a l ih =>
    rcases List.mem_cons.mp hx with h | h
    · subst h
      exact le_max_left _ _
    · exact le_trans (ih h) (le_max_right _ _)

theorem foldr_max_mem (l : List Nat) (h : l ≠ []) : l.foldr max 0 ∈ l := by
  induction l with
  | nil => exact absurd rfl h
  | cons a l ih =>
    cases l with
    | nil => simp
    | cons b t =>
      rcases max_choice a ((b :: t).foldr max 0) with hm | hm
      · rw [List.foldr_cons, hm]
        exact List.mem_cons_self _ _
      · rw [List.foldr_cons, hm]
        exact List.mem_cons_of_mem _ (ih (by simp))

theorem nodup_all_eq_singleton (l : List Nat) (t : Nat) (hnd : l.Nodup) (hmem : t ∈ l)
    (hall : ∀ x ∈ l, x = t) : l = [t] := by
  cases l with
  | nil => cases hmem
  | cons a l' =>
    have ha : a = t := hall a (List.mem_cons_self _ _)
    subst ha
    cases l' with
    | nil => rfl
    | cons b l'' =>
      have hb : b = a := hall b (by simp)
      obtain ⟨hna, _⟩ := List.nodup_cons.mp hnd
      exact absurd (by rw [← hb]; exact List.mem_cons_self _ _) hna

theorem voteBucketPool_subset (st : GameState) :
    ∀ x ∈ voteBucketPool st, x ∈ votedTargets st := by
  intro x hx
  simp only [voteBucketPool] at hx
  split_ifs at hx
  · exact hx
  · exact (List.mem_filter.mp hx).1

theorem votedTargets_nodup (st : GameState) : (votedTargets st).Nodup :=
  List.nodup_dedup _

theorem voteBucketPool_nodup (st : GameState) : (voteBucketPool st).Nodup := by
  simp only [voteBucketPool]
  split_ifs
  · exact votedTargets_nodup st
  · exact (votedTargets_nodup st).filter _

/-- On an assoc list with distinct keys, the number of entries with value
`t` is the number of keys that look up to `t`. -/
theorem assoc_count (d : List (Nat × Nat)) (t : Nat) (hnd : (dictKeys d).Nodup) :
    (d.filter (fun p => p.2 == t)).length
      = ((dictKeys d).filter (fun v => dictLookup d v == some t)).length := by
  induction d with
  | nil => rfl
  | cons p d ih =>
    have hkc : dictKeys (p :: d) = p.1 :: dictKeys d := rfl
    rw [hkc] at hnd
    obtain ⟨hp, hnd'⟩ := List.nodup_cons.mp hnd
    have hcong : (dictKeys d).filter (fun v => dictLookup (p :: d) v == some t)
        = (dictKeys d).filter (fun v => dictLookup d v == some t) := by
      apply List.filter_congr
      intro v hv
      have hvne : (p.1 == v) = false := by
        cases he : p.1 == v
        · rfl
        · rw [beq_iff_eq] at he
          exact absurd (by rw [he]; exact hv) hp
      simp [dictLookup, hvne]
    have hhead : dictLookup (p :: d) p.1 = some p.2 := by
      simp [dictLookup]
    rw [hkc, List.filter_cons, List.filter_cons, hhead]
    by_cases hpt : p.2 = t
    · simp [hpt, hcong, ih hnd']
    · simp [hpt, hcong, ih hnd']

theorem topGuess_some (st : GameState) (t : Nat) (h : topGuess st = some t) :
    t ∈ voteBucketPool st ∧
    ∀ u ∈ voteBucketPool st, u ≠ t → countFor st u < countFor st t := by
  simp only [topGuess] at h
  split_ifs at h with h1 h2
  obtain ⟨a, ha⟩ := List.length_eq_one.mp h2
  rw [ha] at h
  simp only [List.head?_cons, Option.some.injEq] at h
  rw [h] at ha
  have htmem : t ∈ (voteBucketPool st).filter (fun u =>
      countFor st u == ((voteBucketPool st).map (countFor st)).foldr max 0) := by
    rw [ha]
    exact List.mem_cons_self _ _
  obtain ⟨htpool, hteq⟩ := List.mem_filter.mp htmem
  rw [beq_iff_eq] at hteq
  refine ⟨htpool, ?_⟩
  intro u hu hut
  have hle : countFor st u ≤ ((voteBucketPool st).map (countFor st)).foldr max 0 :=
    le_foldr_max _ _ (List.mem_map_of_mem _ hu)
  rcases Nat.lt_or_ge (countFor st u)
    (((voteBucketPool st).map (countFor st)).foldr max 0) with hlt | hge
  · rw [hteq]
    exact hlt
  · have hueq : countFor st u = ((voteBucketPool st).map (countFor st)).foldr max 0 := by
      omega
    have humem : u ∈ (voteBucketPool st).filter (fun u =>
        countFor st u == ((voteBucketPool st).map (countFor st)).foldr max 0) :=
      List.mem_filter.mpr ⟨hu, by rw [hueq]; exact beq_self_eq_true _⟩
    rw [ha] at humem
    simp only [List.mem_singleton] at humem
    exact absurd humem hut

theorem topGuess_complete (st : GameState) (t : Nat) (hmem : t ∈ voteBucketPool st)
    (hstrict : ∀ u ∈ voteBucketPool st, u ≠ t → countFor st u < countFor st t) :
    topGuess st = some t := by
  have hne : votedTargets st ≠ [] := List.ne_nil_of_mem (voteBucketPool_subset st t hmem)
  have hpoolne : voteBucketPool st ≠ [] := List.ne_nil_of_mem hmem
  have hmapne : (voteBucketPool st).map (countFor st) ≠ [] := by
    simp [hpoolne]
  obtain ⟨w, hw, hwe⟩ := List.mem_map.mp (foldr_max_mem _ hmapne)
  have hle : countFor st t ≤ ((voteBucketPool st).map (countFor st)).foldr max 0 :=
    le_foldr_max _ _ (List.mem_map_of_mem _ hmem)
  have hteq : countFor st t = ((voteBucketPool st).map (countFor st)).foldr max 0 := by
    by_cases hwt : w = t
    · rw [← hwe, hwt]
    · have := hstrict w hw hwt
      omega
  have htop : (voteBucketPool st).filter (fun u =>
      countFor st u == ((voteBucketPool st).map (countFor st)).foldr max 0) = [t] := by
    apply nodup_all_eq_singleton _ t ((voteBucketPool_nodup st).filter _)
    · exact List.mem_filter.mpr ⟨hmem, by rw [hteq]; exact beq_self_eq_true _⟩
    · intro x hx
      obtain ⟨hxp, hxe⟩ := List.mem_filter.mp hx
      rw [beq_iff_eq] at hxe
      by_contra hxt
      have := hstrict x hxp hxt
      omega
  simp only [topGuess]
  rw [if_neg hne, htop]
  rfl

theorem topGuess_tie (st : GameState) (t u : Nat) (ht : t ∈ voteBucketPool st)
    (hu : u ∈ voteBucketPool st) (htu : t ≠ u)
    (hcnt : countFor st t = countFor st u)
    (hmax : ∀ v ∈ voteBucketPool st, countFor st v ≤ countFor st t) :
    topGuess st = none := by
  have hne : votedTargets st ≠ [] := List.ne_nil_of_mem (voteBucketPool_subset st t ht)
  have hle : countFor st t ≤ ((voteBucketPool st).map (countFor st)).foldr max 0 :=
    le_foldr_max _ _ (List.mem_map_of_mem _ ht)
  have hpoolne : voteBucketPool st ≠ [] := List.ne_nil_of_mem ht
  have hmapne : (voteBucketPool st).map (countFor st) ≠ [] := by
    simp [hpoolne]
  obtain ⟨w, hw, hwe⟩ := List.mem_map.mp (foldr_max_mem _ hmapne)
  have hteq : countFor st t = ((voteBucketPool st).map (countFor st)).foldr max 0 := by
    have := hmax w hw
    omega
  have htmem : t ∈ (voteBucketPool st).filter (fun v =>
      countFor st v == ((voteBucketPool st).map (countFor st)).foldr max 0) :=
    List.mem_filter.mpr ⟨ht, by rw [← hteq]; exact beq_self_eq_true _⟩
  have humem : u ∈ (voteBucketPool st).filter (fun v =>
      countFor st v == ((voteBucketPool st).map (countFor st)).foldr max 0) :=
    List.mem_filter.mpr ⟨hu, by rw [← hcnt, ← hteq]; exact beq_self_eq_true _⟩
  have hlen : ¬ ((voteBucketPool st).filter (fun v =>
      countFor st v == ((voteBucketPool st).map (countFor st)).foldr max 0)).length = 1 := by
    intro hlen1
    obtain ⟨a, ha⟩ := List.length_eq_one.mp hlen1
    rw [ha] at htmem humem
    simp only [List.mem_singleton] at htmem humem
    exact htu (htmem.trans humem.symm)
  simp only [topGuess]
  rw [if_neg hne, if_neg hlen]

/-- C1: the tally counts each target's ballots from roster voters; the
top-guess pool excludes the skip bucket exactly when a non-skip ballot
exists; the top guess is the unique strict maximum of the pool and a tie
for the maximum yields no top guess. -/
theorem finalize_tally_spec (st : GameState)
    (hvalid : ∀ p ∈ st.votes, validVote st.players p = true)
    (hkeys : (dictKeys st.votes).Nodup) :
    (∀ t, countFor st t
        = ((dictKeys st.votes).filter (fun v => dictLookup st.votes v == some t)).length) ∧
    ((∃ p ∈ st.votes, p.2 ≠ 0) →
      voteBucketPool st = (votedTargets st).filter (fun t => t ≠ 0)) ∧
    ((∀ p ∈ st.votes, p.2 = 0) → voteBucketPool st = votedTargets st) ∧
    (∀ t, topGuess st = some t → t ∈ voteBucketPool st ∧
      ∀ u ∈ voteBucketPool st, u ≠ t → countFor st u < countFor st t) ∧
    (∀ t, t ∈ voteBucketPool st →
      (∀ u ∈ voteBucketPool st, u ≠ t → countFor st u < countFor st t) →
      topGuess st = some t) ∧
    (∀ t u, t ∈ voteBucketPool st → u ∈ voteBucketPool st → t ≠ u →
      countFor st t = countFor st u →
      (∀ v ∈ voteBucketPool st, countFor st v ≤ countFor st t) →
      topGuess st = none) := by
  have hfil : st.votes.filter (validVote st.players) = st.votes :=
    List.filter_eq_self.mpr hvalid
  refine ⟨?_, ?_, ?_, ?_, ?_, ?_⟩
  · intro t
    unfold countFor
    rw [hfil]
    exact assoc_count st.votes t hkeys
  · rintro ⟨p, hp, hne⟩
    unfold voteBucketPool
    rw [if_neg ?_]
    have hmem : p.2 ∈ votedTargets st := by
      unfold votedTargets
      rw [hfil]
      exact List.mem_dedup.mpr (List.mem_map_of_mem _ hp)
    exact List.ne_nil_of_mem (List.mem_filter.mpr ⟨hmem, by simp [hne]⟩)
  · intro hall
    unfold voteBucketPool
    rw [if_pos ?_]
    rw [List.filter_eq_nil_iff]
    intro a ha
    unfold votedTargets at ha
    rw [hfil] at ha
    obtain ⟨q, hq, hqe⟩ := List.mem_map.mp (List.mem_dedup.mp ha)
    simp only [decide_not, Bool.not_eq_true', decide_eq_false_iff_not, not_not]
    rw [← hqe]
    exact hall q hq
  · intro t h
    exact topGuess_some st t h
  · intro t hmem hstrict
    exact topGuess_complete st t hmem hstrict
  · intro t u ht hu htu hcnt hmax
    exact topGuess_tie st t u ht hu htu hcnt hmax

/-- Witness for C1 at the concrete ballot sheet of `tallySt`. -/
theorem finalize_tally_spec_witness :
    (∀ t, countFor tallySt t
        = ((dictKeys tallySt.votes).filter
            (fun v => dictLookup tallySt.votes v == some t)).length) ∧
    ((∃ p ∈ tallySt.votes, p.2 ≠ 0) →
      voteBucketPool tallySt = (votedTargets tallySt).filter (fun t => t ≠ 0)) ∧
    ((∀ p ∈ tallySt.votes, p.2 = 0) → voteBucketPool tallySt = votedTargets tallySt) ∧
    (∀ t, topGuess tallySt = some t → t ∈ voteBucketPool tallySt ∧
      ∀ u ∈ voteBucketPool tallySt, u ≠ t → countFor tallySt u < countFor tallySt t) ∧
    (∀ t, t ∈ voteBucketPool tallySt →
      (∀ u ∈ voteBucketPool tallySt, u ≠ t → countFor tallySt u < countFor tallySt t) →
      topGuess tallySt = some t) ∧
    (∀ t u, t ∈ voteBucketPool tallySt → u ∈ voteBucketPool tallySt → t ≠ u →
      countFor tallySt t = countFor tallySt u →
      (∀ v ∈ voteBucketPool tallySt, countFor tallySt v ≤ countFor tallySt t) →
      topGuess tallySt = none) :=
  finalize_tally_spec tallySt (by decide) (by decide)

end Imposter
